import Mathlib

/-!
Verification development for the BinDiff differ engine (src/differ.cc).

The file shallowly embeds the parts of the differ that the checked
properties talk about: the two export readers (new `BinExport2` format and
the legacy `BinExport` format, in both the open-source and the Google
build variants), the call-graph augmentation `AddSubsToCallGraph`, the
candidate collection helpers `GetUnmatchedChildren` / `GetUnmatchedParents`
together with the propagation loop of `Diff`, the edge-match counting of
`Count`, and the confidence / similarity layer (`GetConfidence` and the
two `GetSimilarityScore` overloads).

Machine integers are modelled as `Nat` with explicit wraparound where the
source relies on `uint32_t` subtraction; the `double` arithmetic of the
similarity layer is modelled over `ℝ`.
-/

namespace BinDiff

/-! ## Export file headers and record sizes (legacy BinExport format)

`BinExportHeader` (parsed by `BinExportHeader::ParseFromFile/ParseFromStream`
before either legacy reader runs) carries `meta_offset`,
`call_graph_offset` and `num_flow_graphs + 1` flow-graph offsets, the last
being an artificial sentinel entry.  All offsets are `uint32_t`; record
sizes are computed by `uint32_t` subtraction of adjacent offsets. -/

/-- Modulus of `uint32_t` arithmetic. -/
def uint32Mod : Nat := 4294967296

/-- `uint32_t` subtraction `a - b` with wraparound. -/
def usub32 (a b : Nat) : Nat :=
  (a % uint32Mod + (uint32Mod - b % uint32Mod)) % uint32Mod

/-- Header of a legacy BinExport file: `meta_offset`, `call_graph_offset`
and the flow-graph offset table (the table holds `num_flow_graphs + 1`
entries, the last one being a sentinel). -/
structure BinExportHeader where
  meta_offset : Nat
  call_graph_offset : Nat
  num_flow_graphs : Nat
  flow_graph_offsets : List Nat

/-- Size of the meta-information record:
`header.call_graph_offset - header.meta_offset` (uint32 arithmetic). -/
def metaRecordSize (header : BinExportHeader) : Nat :=
  usub32 header.call_graph_offset header.meta_offset

/-- Size of the call-graph record:
`header.flow_graph_offsets[0].offset - header.call_graph_offset`. -/
def callGraphRecordSize (header : BinExportHeader) : Nat :=
  usub32 (header.flow_graph_offsets.getD 0 0) header.call_graph_offset

/-- Size of the `i`-th flow-graph record:
`header.flow_graph_offsets[i + 1].offset - header.flow_graph_offsets[i].offset`. -/
def flowGraphRecordSize (header : BinExportHeader) (i : Nat) : Nat :=
  usub32 (header.flow_graph_offsets.getD (i + 1) 0)
    (header.flow_graph_offsets.getD i 0)

/-- Outcome classification for a reader run. -/
inductive ReadError where
  | recordTooLarge
  | parseError
deriving DecidableEq, Repr

/-- Oracle abstracting the protobuf parser: whether the meta record, the
call-graph record and each flow-graph record parse, and how many vertices
(basic blocks) the `i`-th parsed flow-graph record holds.  The record
payloads themselves are out of scope; only parse success and the
`vertices_size()` used by the empty-flow-graph check matter here. -/
structure ParseOracle where
  metaOk : Bool
  callGraphOk : Bool
  flowGraphOk : Nat → Bool
  flowGraphVertices : Nat → Nat

/-- Size guard constant of the Google legacy reader:
`QCHECK_LT(size, 500000000)`. -/
def sizeGuardLimit : Nat := 500000000

/-- Total-bytes limit of the open-source legacy reader's coded streams:
`kBytesLimit = 2147483647` (2 GiB less one byte). -/
def kBytesLimit : Nat := 2147483647

/-- Flow-graph loop of `ReadBinExportGoogle` (src/differ.cc:187-224): for
each record, first `QCHECK_LT(size, 500000000)` (process aborts with the
record-too-large guard before the buffer is allocated and before
`ParseFromString` runs), then the record is parsed, empty records
(`vertices_size() == 0`) are skipped with a warning, and the remaining
ones are inserted.  The accumulator collects the indices of the inserted
records. -/
def googleReadFlowGraphs (header : BinExportHeader) (p : ParseOracle) :
    List Nat → List Nat → Except ReadError (List Nat)
  | [], acc => Except.ok acc
  | i :: rest, acc =>
    if sizeGuardLimit ≤ flowGraphRecordSize header i then
      Except.error ReadError.recordTooLarge
    else if !p.flowGraphOk i then
      Except.error ReadError.parseError
    else if p.flowGraphVertices i = 0 then
      googleReadFlowGraphs header p rest acc
    else
      googleReadFlowGraphs header p rest (acc ++ [i])

/-- `ReadBinExportGoogle` (src/differ.cc:148-227): reads the meta record
(size guard, then parse), the call-graph record (size guard, then parse),
then each flow-graph record by its offset pair.  Returns the indices of
the inserted flow-graph records. -/
def ReadBinExportGoogle (header : BinExportHeader) (p : ParseOracle) :
    Except ReadError (List Nat) :=
  if sizeGuardLimit ≤ metaRecordSize header then
    Except.error ReadError.recordTooLarge
  else if !p.metaOk then
    Except.error ReadError.parseError
  else if sizeGuardLimit ≤ callGraphRecordSize header then
    Except.error ReadError.recordTooLarge
  else if !p.callGraphOk then
    Except.error ReadError.parseError
  else
    googleReadFlowGraphs header p (List.range header.num_flow_graphs) []

/-- Flow-graph loop of the open-source `ReadBinExport`
(src/differ.cc:320-357): each record's offset-pair size is only pushed as
a coded-stream limit (`PushLimit`) with the total bytes limit set to
`kBytesLimit`; there is no 500 MB guard and no empty-record skip.  A
record that cannot be parsed (in particular one exceeding the stream's
total bytes limit) raises `std::runtime_error`, modelled as `parseError`. -/
def legacyReadFlowGraphs (header : BinExportHeader) (p : ParseOracle) :
    List Nat → List Nat → Except ReadError (List Nat)
  | [], acc => Except.ok acc
  | i :: rest, acc =>
    if kBytesLimit < flowGraphRecordSize header i then
      Except.error ReadError.parseError
    else if !p.flowGraphOk i then
      Except.error ReadError.parseError
    else
      legacyReadFlowGraphs header p rest (acc ++ [i])

/-- Open-source legacy reader `ReadBinExport` (src/differ.cc:278-360):
parses the meta record and the call-graph record under pushed limits, then
every flow-graph record.  All parse failures throw; there is no
record-too-large rejection anywhere in this reader. -/
def ReadBinExport (header : BinExportHeader) (p : ParseOracle) :
    Except ReadError (List Nat) :=
  if !p.metaOk then
    Except.error ReadError.parseError
  else if !p.callGraphOk then
    Except.error ReadError.parseError
  else
    legacyReadFlowGraphs header p (List.range header.num_flow_graphs) []

/-! ## New-format (BinExport2) reader -/

/-- One `flow_graph` record of a `BinExport2` proto; only the entry
address and the `basic_block_index` list matter to the reader logic. -/
structure BinExport2FlowGraph where
  address : Nat
  basic_block_index : List Nat
deriving DecidableEq, Repr

/-- The parsed `BinExport2` proto: call-graph vertex addresses and the
repeated `flow_graph` records. -/
structure BinExport2 where
  vertexAddresses : List Nat
  flow_graph : List BinExport2FlowGraph
deriving DecidableEq, Repr

/-- An in-memory `FlowGraph` as far as the reader-level properties are
concerned: its entry-point address and how many basic blocks it holds. -/
structure FlowGraph where
  entryAddress : Nat
  basicBlockCount : Nat
deriving DecidableEq, Repr

/-- The `FlowGraph` object built by `FlowGraph::Read` from one proto
flow-graph record. -/
def flowGraphOfProto (fg : BinExport2FlowGraph) : FlowGraph :=
  { entryAddress := fg.address, basicBlockCount := fg.basic_block_index.length }

/-- Flow-graph loop of the open-source `ReadBinExport2`
(src/differ.cc:268-272): every proto flow-graph record is read and
inserted; there is no emptiness check. -/
def readBinExport2Loop : List BinExport2FlowGraph → List FlowGraph
  | [] => []
  | fg :: rest => flowGraphOfProto fg :: readBinExport2Loop rest

/-- Flow-graph loop of `ReadBinExport2Google` (src/differ.cc:134-142):
records with `basic_block_index_size() == 0` are skipped (with a logged
warning); all other records are read and inserted. -/
def readBinExport2GoogleLoop : List BinExport2FlowGraph → List FlowGraph
  | [] => []
  | fg :: rest =>
    if fg.basic_block_index.length = 0 then
      readBinExport2GoogleLoop rest
    else
      flowGraphOfProto fg :: readBinExport2GoogleLoop rest

/-- Flow graphs inserted by the open-source `ReadBinExport2` parse loop. -/
def ReadBinExport2FlowGraphs (proto : BinExport2) : List FlowGraph :=
  readBinExport2Loop proto.flow_graph

/-- Flow graphs inserted by the `ReadBinExport2Google` parse loop. -/
def ReadBinExport2GoogleFlowGraphs (proto : BinExport2) : List FlowGraph :=
  readBinExport2GoogleLoop proto.flow_graph

/-! ## Call-graph augmentation: `AddSubsToCallGraph` -/

/-- A call-graph vertex: its address, the flow graph it owns (if any), and
the `stub` / `library` flags. -/
structure CallGraphVertex where
  address : Nat
  flowGraph : Option FlowGraph
  stub : Bool
  library : Bool
deriving DecidableEq, Repr

/-- The empty flow graph `new FlowGraph(call_graph, address)` synthesized
for an imported function. -/
def stubFlowGraph (address : Nat) : FlowGraph :=
  { entryAddress := address, basicBlockCount := 0 }

/-- `AddSubsToCallGraph` (src/differ.cc:93-109): for every call-graph
vertex lacking a flow graph, construct a fresh empty one, set the vertex's
`stub` and `library` flags to `true`, and insert the new flow graph into
the flow-graph set.  Vertices that already own a flow graph are left
untouched. -/
def AddSubsToCallGraph :
    List CallGraphVertex → List FlowGraph → List CallGraphVertex × List FlowGraph
  | [], flow_graphs => ([], flow_graphs)
  | vertex :: rest, flow_graphs =>
    match vertex.flowGraph with
    | some _ =>
      let result := AddSubsToCallGraph rest flow_graphs
      (vertex :: result.1, result.2)
    | none =>
      let flow_graph := stubFlowGraph vertex.address
      let vertex' : CallGraphVertex :=
        { vertex with flowGraph := some flow_graph, stub := true, library := true }
      let result := AddSubsToCallGraph rest (flow_graphs ++ [flow_graph])
      (vertex' :: result.1, result.2)

/-- Modelled from the spec: `CallGraph::Read` (not part of src/) creates
one vertex per proto call-graph node, with no flow graph attached yet and
cleared flags. -/
def callGraphRead (proto : BinExport2) : List CallGraphVertex :=
  proto.vertexAddresses.map fun a =>
    { address := a, flowGraph := none, stub := false, library := false }

/-- Modelled from the spec: `FlowGraph::Read` (not part of src/) links
each parsed flow graph to the call-graph vertex of its entry-point
address. -/
def attachFlowGraphs (vertices : List CallGraphVertex) (fgs : List FlowGraph) :
    List CallGraphVertex :=
  vertices.map fun v =>
    match fgs.find? (fun fg => fg.entryAddress == v.address) with
    | some fg => { v with flowGraph := some fg }
    | none => v

/-- The full successful new-format load (src/differ.cc:254-276): parse
loop, then `AddSubsToCallGraph` as the final step. -/
def ReadBinExport2Load (proto : BinExport2) :
    List CallGraphVertex × List FlowGraph :=
  let fgs := ReadBinExport2FlowGraphs proto
  AddSubsToCallGraph (attachFlowGraphs (callGraphRead proto) fgs) fgs

/-! ## The top-level `Read` dispatcher -/

/-- An input export file as the dispatcher sees it: whether the whole file
parses as a `BinExport2` message (`proto.ParseFromIstream`), the parsed
proto if so, and the legacy header / parse oracle used on retry. -/
structure ExportFile where
  parse2Ok : Bool
  proto2 : BinExport2
  header : BinExportHeader
  oracle : ParseOracle

/-- `ReadBinExport2` (src/differ.cc:254-276) at file granularity: `none`
when the proto fails to parse (the function returns `false`), otherwise
the loaded call graph and flow-graph set. -/
def ReadBinExport2 (file : ExportFile) :
    Option (List CallGraphVertex × List FlowGraph) :=
  if file.parse2Ok then some (ReadBinExport2Load file.proto2) else none

/-- Which decoder `Read` invoked, in order. -/
inductive DecoderCall where
  | binExport2
  | binExport
deriving DecidableEq, Repr

/-- `Read` (src/differ.cc:362-372): try `ReadBinExport2`; if and only if
it fails, retry the same file with the legacy `ReadBinExport`.  The first
component records the decoder invocations in order. -/
def Read (file : ExportFile) : List DecoderCall × Except ReadError Unit :=
  match ReadBinExport2 file with
  | some _ => ([DecoderCall.binExport2], Except.ok ())
  | none =>
    ([DecoderCall.binExport2, DecoderCall.binExport],
      (ReadBinExport file.header file.oracle).map fun _ => ())

/-! ## Diff propagation: candidate collection and the inner loop -/

/-- A call-graph edge with its `duplicate` flag (an edge is flagged
duplicate when multiple call sites exist between the same pair). -/
structure CallGraphEdge where
  source : Nat
  target : Nat
  duplicate : Bool
deriving DecidableEq, Repr

/-- The call graph as `GetUnmatchedChildren` / `GetUnmatchedParents` see
it: its edge list and, per vertex, whether `GetFlowGraph` is non-null. -/
structure DiffCallGraph where
  edges : List CallGraphEdge
  hasFlowGraph : Nat → Bool

/-- `GetUnmatchedChildren` (src/differ.cc:46-66): walk the out-edges of
`vertex`, skip duplicate edges, skip targets with a null flow graph or an
existing fixed point (`matched`), and collect the remaining targets.
`matched t = true` models `GetFlowGraph(t)->GetFixedPoint() != nullptr`. -/
def GetUnmatchedChildren (cg : DiffCallGraph) (matched : Nat → Bool)
    (vertex : Nat) : List Nat :=
  (cg.edges.filter fun e =>
    e.source == vertex && !e.duplicate && cg.hasFlowGraph e.target &&
      !matched e.target).map fun e => e.target

/-- `GetUnmatchedParents` (src/differ.cc:70-90): symmetric to
`GetUnmatchedChildren` via the in-edges of `vertex`. -/
def GetUnmatchedParents (cg : DiffCallGraph) (matched : Nat → Bool)
    (vertex : Nat) : List Nat :=
  (cg.edges.filter fun e =>
    e.target == vertex && !e.duplicate && cg.hasFlowGraph e.source &&
      !matched e.source).map fun e => e.source

/-- The `do { ... } while (more_fixed_points_discovered)` propagation loop
of `Diff` (src/differ.cc:425-468), with the loop body abstracted: one
body run performs the children pass and the parents pass over all stored
fixed points and reports whether any call of the active step's
`FindFixedPoints` discovered a new fixed point.  The state is the set of
matched call-graph vertices; `fuel` bounds the number of body runs, and
the loop returns `none` only if the fuel is exhausted before an iteration
without discoveries. -/
def propagationLoop (body : Finset Nat → Finset Nat × Bool) :
    Nat → Finset Nat → Option (Finset Nat)
  | 0, _ => none
  | fuel + 1, s =>
    if (body s).2 then propagationLoop body fuel (body s).1
    else some (body s).1

/-! ## Edge-match counting (`Count` on a fixed point) -/

/-- Targets of the out-edges of `v` in an edge-list representation of a
flow graph (`boost::out_edges`). -/
def outEdgeTargets (edges : List (Nat × Nat)) (v : Nat) : List Nat :=
  (edges.filter fun e => e.1 == v).map fun e => e.2

/-- Edge-match loop of `Count(const FixedPoint&, ...)`
(src/differ.cc:560-583): for each edge of the primary flow graph whose
source and target basic blocks both carry basic-block fixed points, scan
the out-edges of the matched secondary source for the matched secondary
target, and count one match (the scan breaks at the first hit).
`fixedPointTarget u = some u2` models
`primary->GetFixedPoint(u)->GetSecondaryVertex() == u2`. -/
def CountEdgeMatches (primaryEdges : List (Nat × Nat))
    (fixedPointTarget : Nat → Option Nat)
    (secondaryEdges : List (Nat × Nat)) : Nat :=
  primaryEdges.foldl
    (fun edges e =>
      match fixedPointTarget e.1, fixedPointTarget e.2 with
      | some source2, some target2 =>
        if (outEdgeTargets secondaryEdges source2).any fun t => t == target2 then
          edges + 1
        else edges
      | _, _ => edges)
    0

/-- The predicate the edge-match loop effectively counts: both endpoints
of the primary edge carry basic-block fixed points, and the secondary
flow graph contains an edge between the matched vertices. -/
def edgeMatched (fixedPointTarget : Nat → Option Nat)
    (secondaryEdges : List (Nat × Nat)) (e : Nat × Nat) : Bool :=
  match fixedPointTarget e.1, fixedPointTarget e.2 with
  | some source2, some target2 => decide ((source2, target2) ∈ secondaryEdges)
  | _, _ => false

/-! ## Confidence and similarity

The counts map is keyed by descriptive strings (`Counts` in the source is
a string-keyed map of integer counters); the histogram maps matching-step
names to match counts; the confidences map assigns each step name its
confidence weight.  The `double` arithmetic is modelled over `ℝ`. -/

/-- String-keyed counts map. -/
abbrev Counts := String → ℤ

/-- Per-matching-step match counts. -/
abbrev Histogram := List (String × Nat)

/-- Per-matching-step confidence weights. -/
abbrev Confidences := String → ℝ

def keyFunctionMatchesNonLibrary : String := "function matches (non-library)"

def keyFunctionsPrimaryNonLibrary : String := "functions primary (non-library)"

def keyFunctionsSecondaryNonLibrary : String := "functions secondary (non-library)"

def keyBasicBlockMatchesNonLibrary : String := "basicBlock matches (non-library)"

def keyBasicBlockMatchesLibrary : String := "basicBlock matches (library)"

def keyBasicBlocksPrimaryNonLibrary : String := "basicBlocks primary (non-library)"

def keyBasicBlocksPrimaryLibrary : String := "basicBlocks primary (library)"

def keyBasicBlocksSecondaryNonLibrary : String := "basicBlocks secondary (non-library)"

def keyBasicBlocksSecondaryLibrary : String := "basicBlocks secondary (library)"

def keyInstructionMatchesNonLibrary : String := "instruction matches (non-library)"

def keyInstructionMatchesLibrary : String := "instruction matches (library)"

def keyInstructionsPrimaryNonLibrary : String := "instructions primary (non-library)"

def keyInstructionsPrimaryLibrary : String := "instructions primary (library)"

def keyInstructionsSecondaryNonLibrary : String := "instructions secondary (non-library)"

def keyInstructionsSecondaryLibrary : String := "instructions secondary (library)"

def keyFlowGraphEdgeMatchesNonLibrary : String := "flowGraph edge matches (non-library)"

def keyFlowGraphEdgeMatchesLibrary : String := "flowGraph edge matches (library)"

def keyFlowGraphEdgesPrimaryNonLibrary : String := "flowGraph edges primary (non-library)"

def keyFlowGraphEdgesPrimaryLibrary : String := "flowGraph edges primary (library)"

def keyFlowGraphEdgesSecondaryNonLibrary : String := "flowGraph edges secondary (non-library)"

def keyFlowGraphEdgesSecondaryLibrary : String := "flowGraph edges secondary (library)"

def stepNameBasicBlockPropagationSizeOne : String := "basicBlock: propagation (size==1)"

def stepNameFunctionCallReferenceMatching : String := "function: call reference matching"

/-- The confidence table `GetConfidence` actually consults
(src/differ.cc:588-601): the static step tables populate `confidences`
(represented by the function argument), and then two entries are
overridden in place. -/
noncomputable def effectiveConfidences (confidences : Confidences) : Confidences :=
  fun name =>
    if name = stepNameBasicBlockPropagationSizeOne then 0.0
    else if name = stepNameFunctionCallReferenceMatching then 0.75
    else confidences name

/-- Accumulated `confidence` of the histogram loop in `GetConfidence`:
`confidence += i->second * (*confidences)[i->first]`. -/
noncomputable def histogramWeightedConfidence (histogram : Histogram)
    (conf : Confidences) : ℝ :=
  (histogram.map fun p => (p.2 : ℝ) * conf p.1).sum

/-- Accumulated `match_count` of the histogram loop in `GetConfidence`:
`match_count += i->second`. -/
def histogramMatchCount (histogram : Histogram) : ℝ :=
  (histogram.map fun p => (p.2 : ℝ)).sum

/-- `GetConfidence` (src/differ.cc:587-612): set up the per-step
confidence table (with the two hardcoded overrides), accumulate the
histogram-weighted confidence sum and the total match count, then squash
through the sigmoid; zero total match count yields `0.0`. -/
noncomputable def GetConfidence (histogram : Histogram)
    (confidences : Confidences) : ℝ :=
  let confidence := histogramWeightedConfidence histogram (effectiveConfidences confidences)
  let match_count := histogramMatchCount histogram
  if match_count ≠ 0 then
    1.0 / (1.0 + Real.exp (-(confidence / match_count - 0.5) * 10.0))
  else 0.0

/-- `basic_block_matches` (src/differ.cc:687-689). -/
def basicBlockMatches (counts : Counts) : ℤ :=
  counts keyBasicBlockMatchesNonLibrary + counts keyBasicBlockMatchesLibrary

/-- `basic_blocks_primary` (src/differ.cc:690-692). -/
def basicBlocksPrimary (counts : Counts) : ℤ :=
  counts keyBasicBlocksPrimaryNonLibrary + counts keyBasicBlocksPrimaryLibrary

/-- `basic_blocks_secondary` (src/differ.cc:693-695). -/
def basicBlocksSecondary (counts : Counts) : ℤ :=
  counts keyBasicBlocksSecondaryNonLibrary + counts keyBasicBlocksSecondaryLibrary

/-- `instruction_matches` (src/differ.cc:696-698). -/
def instructionMatches (counts : Counts) : ℤ :=
  counts keyInstructionMatchesNonLibrary + counts keyInstructionMatchesLibrary

/-- `instructions_primary` (src/differ.cc:699-701). -/
def instructionsPrimary (counts : Counts) : ℤ :=
  counts keyInstructionsPrimaryNonLibrary + counts keyInstructionsPrimaryLibrary

/-- `instructions_secondary` (src/differ.cc:702-704). -/
def instructionsSecondary (counts : Counts) : ℤ :=
  counts keyInstructionsSecondaryNonLibrary + counts keyInstructionsSecondaryLibrary

/-- `edge_matches` (src/differ.cc:705-707). -/
def edgeMatches (counts : Counts) : ℤ :=
  counts keyFlowGraphEdgeMatchesNonLibrary + counts keyFlowGraphEdgeMatchesLibrary

/-- `edges_primary` (src/differ.cc:708-710). -/
def edgesPrimary (counts : Counts) : ℤ :=
  counts keyFlowGraphEdgesPrimaryNonLibrary + counts keyFlowGraphEdgesPrimaryLibrary

/-- `edges_secondary` (src/differ.cc:711-713). -/
def edgesSecondary (counts : Counts) : ℤ :=
  counts keyFlowGraphEdgesSecondaryNonLibrary + counts keyFlowGraphEdgesSecondaryLibrary

/-- Flow-graph `GetSimilarityScore` (src/differ.cc:684-742): if every
basic block and instruction on both sides is matched, return `1.0`
immediately; otherwise combine the weighted edge / basic-block /
instruction ratios (capped at `1.0`), average with the MD-index term, and
multiply by the confidence.  `md1` / `md2` are the two flow graphs'
MD-indices. -/
noncomputable def GetSimilarityScoreFlowGraph (md1 md2 : ℝ)
    (histogram : Histogram) (confidences : Confidences) (counts : Counts) : ℝ :=
  if basicBlockMatches counts = basicBlocksPrimary counts ∧
      basicBlockMatches counts = basicBlocksSecondary counts ∧
      instructionMatches counts = instructionsPrimary counts ∧
      instructionMatches counts = instructionsSecondary counts then
    1.0
  else
    ((min
        (0.55 * (edgeMatches counts : ℝ) /
            max 1.0 (0.5 * ((edgesPrimary counts : ℝ) + (edgesSecondary counts : ℝ))) +
          0.30 * (basicBlockMatches counts : ℝ) /
            max 1.0 (0.5 * ((basicBlocksPrimary counts : ℝ) + (basicBlocksSecondary counts : ℝ))) +
          0.15 * (instructionMatches counts : ℝ) /
            max 1.0 (0.5 * ((instructionsPrimary counts : ℝ) + (instructionsSecondary counts : ℝ))))
        1.0
      + (1.0 - |md1 - md2| / (1.0 + md1 + md2))) / 2.0)
    * GetConfidence histogram confidences

/-- Whole-program `GetSimilarityScore` (src/differ.cc:746-784): weighted
sum of the non-library edge / basic-block / function / instruction ratios
and the call-graph MD-index term, capped at `1.0` and multiplied by the
confidence.  `md1` / `md2` are the two call graphs' MD-indices. -/
noncomputable def GetSimilarityScoreCallGraph (md1 md2 : ℝ)
    (histogram : Histogram) (confidences : Confidences) (counts : Counts) : ℝ :=
  min
    (0.35 * (counts keyFlowGraphEdgeMatchesNonLibrary : ℝ) /
        max 1.0 (0.5 * ((counts keyFlowGraphEdgesPrimaryNonLibrary : ℝ) +
          (counts keyFlowGraphEdgesSecondaryNonLibrary : ℝ))) +
      0.25 * (counts keyBasicBlockMatchesNonLibrary : ℝ) /
        max 1.0 (0.5 * ((counts keyBasicBlocksPrimaryNonLibrary : ℝ) +
          (counts keyBasicBlocksSecondaryNonLibrary : ℝ))) +
      0.10 * (counts keyFunctionMatchesNonLibrary : ℝ) /
        max 1.0 (0.5 * ((counts keyFunctionsPrimaryNonLibrary : ℝ) +
          (counts keyFunctionsSecondaryNonLibrary : ℝ))) +
      0.10 * (counts keyInstructionMatchesNonLibrary : ℝ) /
        max 1.0 (0.5 * ((counts keyInstructionsPrimaryNonLibrary : ℝ) +
          (counts keyInstructionsSecondaryNonLibrary : ℝ))) +
      0.20 * (1.0 - |md1 - md2| / (1.0 + md1 + md2)))
    1.0
  * GetConfidence histogram confidences

/-! ### Spec-side formulations (for the refinement claims) -/

/-- The sigmoid `σ(x) = 1 / (1 + e^(−x))` of the spec. -/
noncomputable def sigmoid (x : ℝ) : ℝ := 1 / (1 + Real.exp (-x))

/-- The weighted mean of per-step confidences, weighted by the histogram
counts, as the spec words it. -/
noncomputable def weightedMeanConfidence (histogram : Histogram)
    (conf : Confidences) : ℝ :=
  histogramWeightedConfidence histogram conf / histogramMatchCount histogram

/-- The spec's average of a primary and a secondary total. -/
noncomputable def specAvg (x y : ℝ) : ℝ := (x + y) / 2

/-- One ratio term of the spec's similarity formula: matches over
`max(1.0, avg)` of the two totals. -/
noncomputable def specRatio (matchCount primaryTotal secondaryTotal : ℝ) : ℝ :=
  matchCount / max 1.0 (specAvg primaryTotal secondaryTotal)

/-- The whole-program similarity as the spec words it: weights
`(edges 0.35, blocks 0.25, functions 0.10, instructions 0.10,
MD-index 0.20)`, restricted to non-library counts, divisors guarded by
`max(1.0, avg)`, capped at `1.0`, multiplied by the confidence. -/
noncomputable def specWholeProgramSimilarity (md1 md2 : ℝ)
    (histogram : Histogram) (confidences : Confidences) (counts : Counts) : ℝ :=
  min
    (0.35 * specRatio (counts keyFlowGraphEdgeMatchesNonLibrary : ℝ)
        (counts keyFlowGraphEdgesPrimaryNonLibrary : ℝ)
        (counts keyFlowGraphEdgesSecondaryNonLibrary : ℝ) +
      0.25 * specRatio (counts keyBasicBlockMatchesNonLibrary : ℝ)
        (counts keyBasicBlocksPrimaryNonLibrary : ℝ)
        (counts keyBasicBlocksSecondaryNonLibrary : ℝ) +
      0.10 * specRatio (counts keyFunctionMatchesNonLibrary : ℝ)
        (counts keyFunctionsPrimaryNonLibrary : ℝ)
        (counts keyFunctionsSecondaryNonLibrary : ℝ) +
      0.10 * specRatio (counts keyInstructionMatchesNonLibrary : ℝ)
        (counts keyInstructionsPrimaryNonLibrary : ℝ)
        (counts keyInstructionsSecondaryNonLibrary : ℝ) +
      0.20 * (1 - |md1 - md2| / (1 + md1 + md2)))
    1
  * GetConfidence histogram confidences

/-! ## Helper lemmas -/

/-- The open-source new-format parse loop inserts one flow graph per proto
record. -/
theorem readBinExport2Loop_eq_map (l : List BinExport2FlowGraph) :
    readBinExport2Loop l = l.map flowGraphOfProto := by
  induction l with
  | nil => rfl
  | cons fg rest ih => simp [readBinExport2Loop, ih]

/-- The Google new-format parse loop inserts exactly the non-empty proto
records, in order. -/
theorem readBinExport2GoogleLoop_eq_filter (l : List BinExport2FlowGraph) :
    readBinExport2GoogleLoop l =
      (l.filter fun fg => fg.basic_block_index.length != 0).map flowGraphOfProto := by
  induction l with
  | nil => rfl
  | cons fg rest ih =>
    by_cases h : fg.basic_block_index.length = 0
    · simp [readBinExport2GoogleLoop, h, ih, List.filter_cons]
    · simp [readBinExport2GoogleLoop, h, ih, List.filter_cons]

/-- Every vertex of the call graph produced by `AddSubsToCallGraph` owns a
flow graph. -/
theorem addSubs_all_isSome :
    ∀ (vertices : List CallGraphVertex) (flow_graphs : List FlowGraph),
      ∀ v ∈ (AddSubsToCallGraph vertices flow_graphs).1, v.flowGraph.isSome = true := by
  intro vertices
  induction vertices with
  | nil => intro flow_graphs v hv; simp [AddSubsToCallGraph] at hv
  | cons x rest ih =>
    intro flow_graphs v hv
    cases hx : x.flowGraph with
    | some fg =>
      simp only [AddSubsToCallGraph, hx] at hv
      rcases List.mem_cons.mp hv with rfl | hv'
      · simp [hx]
      · exact ih flow_graphs v hv'
    | none =>
      simp only [AddSubsToCallGraph, hx] at hv
      rcases List.mem_cons.mp hv with rfl | hv'
      · simp
      · exact ih _ v hv'

/-- Pointwise description of `AddSubsToCallGraph`: vertices lacking a flow
graph receive the fresh empty one and both flags; others are untouched. -/
theorem addSubs_zip_spec :
    ∀ (vertices : List CallGraphVertex) (flow_graphs : List FlowGraph),
      ∀ pair ∈ vertices.zip (AddSubsToCallGraph vertices flow_graphs).1,
        (pair.1.flowGraph = none →
          pair.2 = { address := pair.1.address,
                     flowGraph := some (stubFlowGraph pair.1.address),
                     stub := true, library := true })
        ∧ (pair.1.flowGraph ≠ none → pair.2 = pair.1) := by
  intro vertices
  induction vertices with
  | nil => intro flow_graphs pair hp; simp at hp
  | cons x rest ih =>
    intro flow_graphs pair hp
    cases hx : x.flowGraph with
    | some fg =>
      simp only [AddSubsToCallGraph, hx, List.zip_cons_cons] at hp
      rcases List.mem_cons.mp hp with rfl | hp'
      · exact ⟨fun h => absurd h (by simp [hx]), fun _ => rfl⟩
      · exact ih flow_graphs pair hp'
    | none =>
      simp only [AddSubsToCallGraph, hx, List.zip_cons_cons] at hp
      rcases List.mem_cons.mp hp with rfl | hp'
      · exact ⟨fun _ => by simp [hx], fun h => absurd hx h⟩
      · exact ih _ pair hp'

/-- `AddSubsToCallGraph` keeps the vertex list length. -/
theorem addSubs_length :
    ∀ (vertices : List CallGraphVertex) (flow_graphs : List FlowGraph),
      (AddSubsToCallGraph vertices flow_graphs).1.length = vertices.length := by
  intro vertices
  induction vertices with
  | nil => intro flow_graphs; rfl
  | cons x rest ih =>
    intro flow_graphs
    cases hx : x.flowGraph with
    | some fg => simp [AddSubsToCallGraph, hx, ih]
    | none => simp [AddSubsToCallGraph, hx, ih]

/-- A successful run of the Google flow-graph loop implies every visited
record's size passed the 500 MB guard. -/
theorem googleRead_ok_sizes (header : BinExportHeader) (p : ParseOracle) :
    ∀ (l acc r : List Nat),
      googleReadFlowGraphs header p l acc = Except.ok r →
      ∀ i ∈ l, flowGraphRecordSize header i < sizeGuardLimit := by
  intro l
  induction l with
  | nil => intro acc r _ i hi; simp at hi
  | cons x rest ih =>
    intro acc r h i hi
    unfold googleReadFlowGraphs at h
    split_ifs at h with h1 h2 h3
    · rcases List.mem_cons.mp hi with rfl | hi'
      · omega
      · exact ih _ r h i hi'
    · rcases List.mem_cons.mp hi with rfl | hi'
      · omega
      · exact ih _ r h i hi'

/-- When every record parses, an oversized record in the remaining list
makes the Google flow-graph loop fail with the record-too-large guard. -/
theorem googleRead_oversized_error (header : BinExportHeader) (p : ParseOracle)
    (hok : ∀ i, p.flowGraphOk i = true) :
    ∀ (l acc : List Nat),
      (∃ i ∈ l, sizeGuardLimit ≤ flowGraphRecordSize header i) →
      googleReadFlowGraphs header p l acc =
        Except.error ReadError.recordTooLarge := by
  intro l
  induction l with
  | nil => rintro acc ⟨i, hi, -⟩; simp at hi
  | cons x rest ih =>
    rintro acc ⟨i, hi, hsize⟩
    unfold googleReadFlowGraphs
    by_cases hx : sizeGuardLimit ≤ flowGraphRecordSize header x
    · rw [if_pos hx]
    · have hi' : i ∈ rest := by
        rcases List.mem_cons.mp hi with rfl | hi'
        · exact absurd hsize hx
        · exact hi'
      rw [if_neg hx, hok x]
      by_cases hv : p.flowGraphVertices x = 0
      · simpa [hv] using ih acc ⟨i, hi', hsize⟩
      · simpa [hv] using ih (acc ++ [x]) ⟨i, hi', hsize⟩

/-! ## Claim C1 -/

/-- Header of a legacy export whose single flow-graph record spans
600000000 bytes (more than 500 MB). -/
def oversizedHeader : BinExportHeader :=
  { meta_offset := 0, call_graph_offset := 0, num_flow_graphs := 1,
    flow_graph_offsets := [0, 600000000] }

/-- Header whose meta-information record alone spans 500000000 bytes. -/
def oversizedMetaHeader : BinExportHeader :=
  { meta_offset := 0, call_graph_offset := 500000000, num_flow_graphs := 0,
    flow_graph_offsets := [500000000] }

/-- Parse oracle under which every record parses and is non-empty. -/
def allOkOracle : ParseOracle :=
  { metaOk := true, callGraphOk := true, flowGraphOk := fun _ => true,
    flowGraphVertices := fun _ => 1 }

/-- C1, counterexample: the open-source legacy reader `ReadBinExport` has
no 500 MB guard — it accepts an export whose flow-graph record spans
600000000 bytes, so a record larger than 500 MB is accepted by the
reader. -/
theorem readBinExport_accepts_oversized_record :
    sizeGuardLimit < flowGraphRecordSize oversizedHeader 0
    ∧ ReadBinExport oversizedHeader allOkOracle = Except.ok [0] := by
  exact ⟨by decide, rfl⟩

/-- C1, amended: only the Google legacy reader `ReadBinExportGoogle`
enforces the 500 MB guard: a load never succeeds when any record reaches
500000000 bytes; an oversized meta record fails with the record-too-large
guard regardless of any parse outcome (so before the record is allocated
or parsed); and whenever all records parse, any oversized record makes
the load fail with the record-too-large guard.  The open-source
`ReadBinExport` imposes no such bound. -/
theorem readBinExportGoogle_record_size_guard
    (header : BinExportHeader) (p : ParseOracle) :
    (∀ r, ReadBinExportGoogle header p = Except.ok r →
      metaRecordSize header < sizeGuardLimit ∧
      callGraphRecordSize header < sizeGuardLimit ∧
      ∀ i < header.num_flow_graphs, flowGraphRecordSize header i < sizeGuardLimit)
    ∧ (sizeGuardLimit ≤ metaRecordSize header →
      ∀ q : ParseOracle,
        ReadBinExportGoogle header q = Except.error ReadError.recordTooLarge)
    ∧ ((∀ i, p.flowGraphOk i = true) → p.metaOk = true → p.callGraphOk = true →
      (sizeGuardLimit ≤ metaRecordSize header ∨
        sizeGuardLimit ≤ callGraphRecordSize header ∨
        ∃ i, i < header.num_flow_graphs ∧
          sizeGuardLimit ≤ flowGraphRecordSize header i) →
      ReadBinExportGoogle header p = Except.error ReadError.recordTooLarge) := by
  refine ⟨?_, ?_, ?_⟩
  · intro r h
    unfold ReadBinExportGoogle at h
    split_ifs at h with h1 h2 h3 h4
    refine ⟨by omega, by omega, fun i hi => ?_⟩
    exact googleRead_ok_sizes header p _ _ r h i (List.mem_range.mpr hi)
  · intro hbig q
    unfold ReadBinExportGoogle
    rw [if_pos hbig]
  · intro hok hmeta hcg hbig
    unfold ReadBinExportGoogle
    by_cases h1 : sizeGuardLimit ≤ metaRecordSize header
    · rw [if_pos h1]
    · rw [if_neg h1, hmeta]
      by_cases h3 : sizeGuardLimit ≤ callGraphRecordSize header
      · simp [h3]
      · rcases hbig with hb | hb | ⟨i, hi, hb⟩
        · exact absurd hb h1
        · exact absurd hb h3
        · simpa [h3, hcg] using
            googleRead_oversized_error header p hok _ []
              ⟨i, List.mem_range.mpr hi, hb⟩

/-- C1 (amended), witness: a header whose meta record spans exactly
500000000 bytes is rejected with the record-too-large guard even though
every record would parse. -/
theorem readBinExportGoogle_record_size_guard_witness :
    sizeGuardLimit ≤ metaRecordSize oversizedMetaHeader
    ∧ ReadBinExportGoogle oversizedMetaHeader allOkOracle =
        Except.error ReadError.recordTooLarge :=
  ⟨by decide,
   (readBinExportGoogle_record_size_guard oversizedMetaHeader allOkOracle).2.1
     (by decide) allOkOracle⟩

/-! ## Claim C2 -/

/-- C2, counterexample: the open-source `ReadBinExport2` does not skip a
flow-graph record with zero basic blocks — a `FlowGraph` object for the
empty record is inserted into the flow-graph set (only
`ReadBinExport2Google` skips it). -/
theorem readBinExport2_inserts_empty_flow_graph :
    ({ address := 4096, basic_block_index := [] } :
        BinExport2FlowGraph).basic_block_index.length = 0
    ∧ ReadBinExport2FlowGraphs
        { vertexAddresses := [4096],
          flow_graph := [{ address := 4096, basic_block_index := [] }] }
        = [{ entryAddress := 4096, basicBlockCount := 0 }]
    ∧ ReadBinExport2GoogleFlowGraphs
        { vertexAddresses := [4096],
          flow_graph := [{ address := 4096, basic_block_index := [] }] }
        = [] :=
  ⟨rfl, rfl, rfl⟩

/-- C2, amended: in the Google variant `ReadBinExport2Google`, every
flow-graph record containing zero basic blocks is skipped, so the
records' flow graphs inserted by the parse loop are exactly those of the
records with a non-empty `basic_block_index`, in order; the open-source
`ReadBinExport2` parse loop inserts a `FlowGraph` for every record,
including empty ones. -/
theorem readBinExport2Google_skips_empty_flow_graphs (proto : BinExport2) :
    ReadBinExport2GoogleFlowGraphs proto =
      (proto.flow_graph.filter fun fg => fg.basic_block_index.length != 0).map
        flowGraphOfProto
    ∧ ReadBinExport2FlowGraphs proto = proto.flow_graph.map flowGraphOfProto :=
  ⟨readBinExport2GoogleLoop_eq_filter proto.flow_graph,
   readBinExport2Loop_eq_map proto.flow_graph⟩

/-! ## Claim C3 -/

/-- C3: after `AddSubsToCallGraph` (the final step of every successful
load, including the modelled `ReadBinExport2Load`), every call-graph
vertex has a non-null flow graph; every vertex that lacked one receives a
freshly constructed empty flow graph and has both its `stub` flag and its
`library` flag set to `true`, while vertices that owned a flow graph are
unchanged. -/
theorem addSubsToCallGraph_total_flow_graph_invariant
    (vertices : List CallGraphVertex) (flow_graphs : List FlowGraph) :
    (∀ v ∈ (AddSubsToCallGraph vertices flow_graphs).1, v.flowGraph.isSome = true)
    ∧ (∀ pair ∈ vertices.zip (AddSubsToCallGraph vertices flow_graphs).1,
        (pair.1.flowGraph = none →
          pair.2 = { address := pair.1.address,
                     flowGraph := some (stubFlowGraph pair.1.address),
                     stub := true, library := true })
        ∧ (pair.1.flowGraph ≠ none → pair.2 = pair.1))
    ∧ (AddSubsToCallGraph vertices flow_graphs).1.length = vertices.length
    ∧ (∀ proto : BinExport2, ∀ v ∈ (ReadBinExport2Load proto).1,
        v.flowGraph.isSome = true) :=
  ⟨addSubs_all_isSome vertices flow_graphs,
   addSubs_zip_spec vertices flow_graphs,
   addSubs_length vertices flow_graphs,
   fun _ => addSubs_all_isSome _ _⟩

/-- C3, witness: a vertex at address 5 without a flow graph, run through
`AddSubsToCallGraph`, yields a vertex owning a flow graph. -/
theorem addSubsToCallGraph_total_flow_graph_invariant_witness :
    ({ address := 5, flowGraph := some (stubFlowGraph 5), stub := true,
       library := true } : CallGraphVertex).flowGraph.isSome = true :=
  (addSubsToCallGraph_total_flow_graph_invariant
      [{ address := 5, flowGraph := none, stub := false, library := false }] []).1
    _ (by decide)

/-! ## Claim C4 -/

/-- C4: `Read` attempts the new-format decoder first and invokes the
legacy decoder if and only if the new-format decoder fails; when
`ReadBinExport2` succeeds the legacy `ReadBinExport` is never invoked. -/
theorem read_invokes_legacy_iff_new_format_fails (file : ExportFile) :
    (Read file).1 =
      (if file.parse2Ok then [DecoderCall.binExport2]
       else [DecoderCall.binExport2, DecoderCall.binExport])
    ∧ (DecoderCall.binExport ∈ (Read file).1 ↔ ReadBinExport2 file = none)
    ∧ (ReadBinExport2 file = none ↔ file.parse2Ok = false) := by
  unfold Read ReadBinExport2
  by_cases h : file.parse2Ok
  · simp [h]
  · simp [h]

/-! ## Claim C5 -/

/-- The propagation loop only ever grows the matched set. -/
theorem propagationLoop_subset (body : Finset Nat → Finset Nat × Bool)
    (hmono : ∀ s, s ⊆ (body s).1) :
    ∀ (fuel : Nat) (s r : Finset Nat),
      propagationLoop body fuel s = some r → s ⊆ r := by
  intro fuel
  induction fuel with
  | zero => intro s r h; simp [propagationLoop] at h
  | succ fuel ih =>
    intro s r h
    unfold propagationLoop at h
    by_cases hb : (body s).2
    · rw [if_pos hb] at h
      exact (hmono s).trans (ih _ _ h)
    · rw [if_neg hb] at h
      obtain rfl : (body s).1 = r := Option.some.inj h
      exact hmono s

/-- Fuel bound for the propagation loop: if each discovering iteration
strictly grows the matched set and the matched set stays inside the
vertex range, `N + 1 - card` body runs suffice. -/
theorem propagationLoop_fuel (body : Finset Nat → Finset Nat × Bool) (N : Nat)
    (hmono : ∀ s, s ⊆ (body s).1)
    (hgrow : ∀ s, (body s).2 = true → (body s).1 ≠ s)
    (hbound : ∀ s, s ⊆ Finset.range N → (body s).1 ⊆ Finset.range N) :
    ∀ (fuel : Nat) (s : Finset Nat), s ⊆ Finset.range N →
      N + 1 ≤ fuel + s.card → (propagationLoop body fuel s).isSome = true := by
  intro fuel
  induction fuel with
  | zero =>
    intro s hs hf
    have hcard : s.card ≤ N := by
      have h := Finset.card_le_card hs
      rwa [Finset.card_range] at h
    omega
  | succ fuel ih =>
    intro s hs hf
    unfold propagationLoop
    by_cases hb : (body s).2
    · rw [if_pos hb]
      have hss : s ⊂ (body s).1 :=
        Finset.ssubset_iff_subset_ne.mpr ⟨hmono s, fun h => hgrow s hb h.symm⟩
      have hcard := Finset.card_lt_card hss
      exact ih (body s).1 (hbound s hs) (by omega)
    · rw [if_neg hb]
      rfl

/-- C5: the inner propagation loop of `Diff` terminates within
`N + 1` body runs, where `N` bounds the vertex count — the matched set
only grows, and an iteration reporting a discovery strictly enlarges it;
moreover the candidate children and parents computed by
`GetUnmatchedChildren` / `GetUnmatchedParents` always exclude already
matched flow graphs, null flow graphs, and flow graphs reached via
duplicate edges. -/
theorem diff_propagation_terminates
    (N : Nat) (body : Finset Nat → Finset Nat × Bool) (s₀ : Finset Nat)
    (hmono : ∀ s, s ⊆ (body s).1)
    (hgrow : ∀ s, (body s).2 = true → (body s).1 ≠ s)
    (hbound : ∀ s, s ⊆ Finset.range N → (body s).1 ⊆ Finset.range N)
    (hinit : s₀ ⊆ Finset.range N) :
    ((propagationLoop body (N + 1) s₀).isSome = true
      ∧ ∀ r, propagationLoop body (N + 1) s₀ = some r → s₀ ⊆ r)
    ∧ (∀ (cg : DiffCallGraph) (matched : Nat → Bool) (v t : Nat),
        t ∈ GetUnmatchedChildren cg matched v →
        matched t = false ∧ cg.hasFlowGraph t = true ∧
          ∃ e ∈ cg.edges, e.duplicate = false ∧ e.source = v ∧ e.target = t)
    ∧ (∀ (cg : DiffCallGraph) (matched : Nat → Bool) (v t : Nat),
        t ∈ GetUnmatchedParents cg matched v →
        matched t = false ∧ cg.hasFlowGraph t = true ∧
          ∃ e ∈ cg.edges, e.duplicate = false ∧ e.target = v ∧ e.source = t) := by
  refine ⟨⟨?_, ?_⟩, ?_, ?_⟩
  · exact propagationLoop_fuel body N hmono hgrow hbound (N + 1) s₀ hinit (by omega)
  · intro r h
    exact propagationLoop_subset body hmono (N + 1) s₀ r h
  · intro cg matched v t ht
    simp only [GetUnmatchedChildren, List.mem_map, List.mem_filter] at ht
    obtain ⟨e, ⟨he, hcond⟩, rfl⟩ := ht
    simp only [Bool.and_eq_true, beq_iff_eq, Bool.not_eq_true'] at hcond
    obtain ⟨⟨⟨hsv, hdup⟩, hfg⟩, hm⟩ := hcond
    exact ⟨hm, hfg, e, he, hdup, hsv, rfl⟩
  · intro cg matched v t ht
    simp only [GetUnmatchedParents, List.mem_map, List.mem_filter] at ht
    obtain ⟨e, ⟨he, hcond⟩, rfl⟩ := ht
    simp only [Bool.and_eq_true, beq_iff_eq, Bool.not_eq_true'] at hcond
    obtain ⟨⟨⟨htv, hdup⟩, hfg⟩, hm⟩ := hcond
    exact ⟨hm, hfg, e, he, hdup, htv, rfl⟩

/-- C5, witness: with no vertices and a body that never reports a
discovery, the loop terminates in one run from the empty matched set. -/
theorem diff_propagation_terminates_witness :
    (∅ : Finset Nat) ⊆ Finset.range 0
    ∧ (propagationLoop (fun s => (s, false)) 1 ∅).isSome = true :=
  ⟨by simp,
   ((diff_propagation_terminates 0 (fun s => (s, false)) ∅
      (fun s => Finset.Subset.refl s)
      (fun s h => by simp at h)
      (fun s hs => hs)
      (by simp)).1).1⟩

/-! ## Claim C9 -/

/-- The out-edge scan of the edge-match loop (find `target2` among the
out-edges of `source2`, breaking at the first hit) succeeds exactly when
the secondary graph contains the edge. -/
theorem outEdge_scan_iff (edges : List (Nat × Nat)) (u v : Nat) :
    (((outEdgeTargets edges u).any fun t => t == v) = true) ↔ (u, v) ∈ edges := by
  simp only [outEdgeTargets, List.any_eq_true, List.mem_map, List.mem_filter,
    beq_iff_eq]
  constructor
  · rintro ⟨t, ⟨e, ⟨he, h1⟩, rfl⟩, h2⟩
    have he' : e = (u, v) := Prod.ext h1 h2
    rwa [he'] at he
  · intro h
    exact ⟨v, ⟨(u, v), ⟨h, rfl⟩, rfl⟩, rfl⟩

/-- Accumulator-generalized description of the edge-match fold. -/
theorem countEdgeMatches_fold (fp : Nat → Option Nat)
    (s : List (Nat × Nat)) :
    ∀ (l : List (Nat × Nat)) (n : Nat),
      l.foldl
        (fun edges e =>
          match fp e.1, fp e.2 with
          | some source2, some target2 =>
            if (outEdgeTargets s source2).any fun t => t == target2 then
              edges + 1
            else edges
          | _, _ => edges)
        n
      = n + l.countP (edgeMatched fp s) := by
  intro l
  induction l with
  | nil => intro n; simp
  | cons e rest ih =>
    intro n
    rw [List.foldl_cons, List.countP_cons, ih]
    have hstep : (match fp e.1, fp e.2 with
        | some source2, some target2 =>
          if (outEdgeTargets s source2).any fun t => t == target2 then
            n + 1
          else n
        | _, _ => n) = n + if edgeMatched fp s e then 1 else 0 := by
      rcases h1 : fp e.1 with - | u2
      · simp [edgeMatched, h1]
      · rcases h2 : fp e.2 with - | v2
        · simp [edgeMatched, h1, h2]
        · dsimp only
          by_cases hmem : (u2, v2) ∈ s
          · rw [if_pos ((outEdge_scan_iff s u2 v2).mpr hmem)]
            simp [edgeMatched, h1, h2, hmem]
          · rw [if_neg fun hc => hmem ((outEdge_scan_iff s u2 v2).mp hc)]
            simp [edgeMatched, h1, h2, hmem]
    rw [hstep]
    omega

/-- C9: the edge-match loop of `Count` counts exactly the primary edges
whose two endpoints carry basic-block fixed points mapping them to
secondary vertices joined by a secondary edge; each primary edge
contributes at most one match. -/
theorem count_edge_matches_characterization
    (primaryEdges : List (Nat × Nat)) (fixedPointTarget : Nat → Option Nat)
    (secondaryEdges : List (Nat × Nat)) :
    CountEdgeMatches primaryEdges fixedPointTarget secondaryEdges =
      primaryEdges.countP (edgeMatched fixedPointTarget secondaryEdges)
    ∧ CountEdgeMatches primaryEdges fixedPointTarget secondaryEdges ≤
        primaryEdges.length
    ∧ ∀ e : Nat × Nat,
        edgeMatched fixedPointTarget secondaryEdges e = true ↔
        ∃ source2 target2, fixedPointTarget e.1 = some source2 ∧
          fixedPointTarget e.2 = some target2 ∧
          (source2, target2) ∈ secondaryEdges := by
  have hcount : CountEdgeMatches primaryEdges fixedPointTarget secondaryEdges =
      primaryEdges.countP (edgeMatched fixedPointTarget secondaryEdges) := by
    unfold CountEdgeMatches
    rw [countEdgeMatches_fold fixedPointTarget secondaryEdges primaryEdges 0]
    omega
  refine ⟨hcount, ?_, ?_⟩
  · rw [hcount]
    exact List.countP_le_length _
  · intro e
    rcases h1 : fixedPointTarget e.1 with - | u2
    · simp [edgeMatched, h1]
    · rcases h2 : fixedPointTarget e.2 with - | v2
      · simp [edgeMatched, h1, h2]
      · simp [edgeMatched, h1, h2]

/-! ## Claim C6 -/

/-- C6: `GetConfidence` returns the sigmoid
`σ(10 · (weighted_mean − 0.5))` of the weighted mean of the per-step
confidences (the table with the two hardcoded overrides applied), with
the histogram counts as weights; a zero total match count (in particular
an empty histogram) yields exactly `0`. -/
theorem getConfidence_sigmoid_of_weighted_mean (h : Histogram)
    (conf : Confidences) :
    GetConfidence h conf =
      if histogramMatchCount h = 0 then 0
      else sigmoid (10 *
        (weightedMeanConfidence h (effectiveConfidences conf) - 0.5)) := by
  rw [GetConfidence]
  by_cases hm : histogramMatchCount h = 0
  · rw [if_neg (not_not_intro hm), if_pos hm]
    norm_num
  · rw [if_pos hm, if_neg hm]
    unfold sigmoid weightedMeanConfidence
    have harg :
        -(histogramWeightedConfidence h (effectiveConfidences conf) /
            histogramMatchCount h - 0.5) * 10.0 =
          -(10 * (histogramWeightedConfidence h (effectiveConfidences conf) /
            histogramMatchCount h - 0.5)) := by ring
    rw [harg]
    norm_num

/-! ## Claim C7 -/

/-- C7: when the basic-block match count equals both sides' basic-block
totals and the instruction match count equals both sides' instruction
totals, the flow-graph similarity score is exactly `1.0`, regardless of
the edge counts, the MD-indices, and the confidence. -/
theorem getSimilarityScore_perfect_flow_graph_match
    (md1 md2 : ℝ) (histogram : Histogram) (confidences : Confidences)
    (counts : Counts)
    (hbp : basicBlockMatches counts = basicBlocksPrimary counts)
    (hbs : basicBlockMatches counts = basicBlocksSecondary counts)
    (hip : instructionMatches counts = instructionsPrimary counts)
    (his : instructionMatches counts = instructionsSecondary counts) :
    GetSimilarityScoreFlowGraph md1 md2 histogram confidences counts = 1.0 := by
  unfold GetSimilarityScoreFlowGraph
  rw [if_pos ⟨hbp, hbs, hip, his⟩]

/-- C7, witness: with the all-zero counts map, every match count equals
every total and the score is `1.0`. -/
theorem getSimilarityScore_perfect_flow_graph_match_witness :
    basicBlockMatches (fun _ => 0) = basicBlocksPrimary (fun _ => 0)
    ∧ GetSimilarityScoreFlowGraph 0 0 [] (fun _ => 0) (fun _ => 0) = 1.0 :=
  ⟨rfl,
   getSimilarityScore_perfect_flow_graph_match 0 0 [] (fun _ => 0)
     (fun _ => 0) rfl rfl rfl rfl⟩

/-! ## Claim C8 -/

/-- C8: the whole-program similarity score follows the spec's formula:
weights `0.35` (edges), `0.25` (basic blocks), `0.10` (functions),
`0.10` (instructions) and `0.20` (MD-index term), restricted to the
non-library counts, with every divisor guarded by `max(1.0, avg)`, capped
at `1.0`, and multiplied by the confidence. -/
theorem getSimilarityScore_callGraph_formula (md1 md2 : ℝ)
    (histogram : Histogram) (confidences : Confidences) (counts : Counts) :
    GetSimilarityScoreCallGraph md1 md2 histogram confidences counts =
      specWholeProgramSimilarity md1 md2 histogram confidences counts := by
  unfold GetSimilarityScoreCallGraph specWholeProgramSimilarity specRatio specAvg
  have havg : ∀ x y : ℝ, 0.5 * (x + y) = (x + y) / 2 := fun x y => by ring
  simp only [havg]
  congr 2
  · ring
  · norm_num

/-! ## Claim C10 -/

/-- The confidence value is never negative: the sigmoid is positive and
the empty-histogram fallback is `0`. -/
theorem getConfidence_nonneg (h : Histogram) (conf : Confidences) :
    0 ≤ GetConfidence h conf := by
  rw [GetConfidence]
  split_ifs with hm
  · positivity
  · norm_num

/-- The confidence value never exceeds `1`: the sigmoid denominator
exceeds its numerator. -/
theorem getConfidence_le_one (h : Histogram) (conf : Confidences) :
    GetConfidence h conf ≤ 1 := by
  rw [GetConfidence]
  split_ifs with hm
  · rw [div_le_one (by positivity)]
    have hexp := Real.exp_pos
      (-(histogramWeightedConfidence h (effectiveConfidences conf) /
          histogramMatchCount h - 0.5) * 10.0)
    linarith
  · norm_num

/-- Bounds for the composite `(min s 1 + m) / 2 * c` shape of the
flow-graph score. -/
theorem flowGraphScore_shape_bounds (a b c : ℝ) (ha : 0 ≤ a) (hb0 : 0 ≤ b)
    (hb1 : b ≤ 1) (hc0 : 0 ≤ c) (hc1 : c ≤ 1) :
    0 ≤ (min a 1.0 + b) / 2.0 * c ∧ (min a 1.0 + b) / 2.0 * c ≤ 1 := by
  have h1 : 0 ≤ min a 1.0 := le_min ha (by norm_num)
  have h2 : 0 ≤ (min a 1.0 + b) / 2.0 := by linarith
  have h3 : min a 1.0 ≤ 1.0 := min_le_right _ _
  have h4 : (min a 1.0 + b) / 2.0 ≤ 1 := by linarith
  refine ⟨mul_nonneg h2 hc0, ?_⟩
  have h5 := mul_nonneg h2 (sub_nonneg.mpr hc1)
  nlinarith [h5, h4, h2, hc0, hc1]

/-- C10: for nonnegative MD-indices and a counts map with nonnegative
entries, the flow-graph similarity score lies in `[0, 1]`, and the
confidence multiplier returned by `GetConfidence` always lies in
`[0, 1]`. -/
theorem getSimilarityScore_flowGraph_bounds (md1 md2 : ℝ)
    (histogram : Histogram) (confidences : Confidences) (counts : Counts)
    (hmd1 : 0 ≤ md1) (hmd2 : 0 ≤ md2) (hcounts : ∀ k, 0 ≤ counts k) :
    (0 ≤ GetSimilarityScoreFlowGraph md1 md2 histogram confidences counts
      ∧ GetSimilarityScoreFlowGraph md1 md2 histogram confidences counts ≤ 1)
    ∧ (0 ≤ GetConfidence histogram confidences
      ∧ GetConfidence histogram confidences ≤ 1) := by
  have hc0 := getConfidence_nonneg histogram confidences
  have hc1 := getConfidence_le_one histogram confidences
  refine ⟨?_, hc0, hc1⟩
  have hE : (0:ℤ) ≤ edgeMatches counts := by
    unfold edgeMatches; exact add_nonneg (hcounts _) (hcounts _)
  have hB : (0:ℤ) ≤ basicBlockMatches counts := by
    unfold basicBlockMatches; exact add_nonneg (hcounts _) (hcounts _)
  have hI : (0:ℤ) ≤ instructionMatches counts := by
    unfold instructionMatches; exact add_nonneg (hcounts _) (hcounts _)
  have hsum : (0:ℝ) ≤
      0.55 * (edgeMatches counts : ℝ) /
        max 1.0 (0.5 * ((edgesPrimary counts : ℝ) + (edgesSecondary counts : ℝ))) +
      0.30 * (basicBlockMatches counts : ℝ) /
        max 1.0 (0.5 * ((basicBlocksPrimary counts : ℝ) +
          (basicBlocksSecondary counts : ℝ))) +
      0.15 * (instructionMatches counts : ℝ) /
        max 1.0 (0.5 * ((instructionsPrimary counts : ℝ) +
          (instructionsSecondary counts : ℝ))) := by
    have hEr : (0:ℝ) ≤ (edgeMatches counts : ℝ) := by exact_mod_cast hE
    have hBr : (0:ℝ) ≤ (basicBlockMatches counts : ℝ) := by exact_mod_cast hB
    have hIr : (0:ℝ) ≤ (instructionMatches counts : ℝ) := by exact_mod_cast hI
    have hden : ∀ x : ℝ, (0:ℝ) ≤ max 1.0 x :=
      fun x => le_trans (by norm_num) (le_max_left 1.0 x)
    have ht1 : (0:ℝ) ≤ 0.55 * (edgeMatches counts : ℝ) /
        max 1.0 (0.5 * ((edgesPrimary counts : ℝ) + (edgesSecondary counts : ℝ))) :=
      div_nonneg (mul_nonneg (by norm_num) hEr) (hden _)
    have ht2 : (0:ℝ) ≤ 0.30 * (basicBlockMatches counts : ℝ) /
        max 1.0 (0.5 * ((basicBlocksPrimary counts : ℝ) +
          (basicBlocksSecondary counts : ℝ))) :=
      div_nonneg (mul_nonneg (by norm_num) hBr) (hden _)
    have ht3 : (0:ℝ) ≤ 0.15 * (instructionMatches counts : ℝ) /
        max 1.0 (0.5 * ((instructionsPrimary counts : ℝ) +
          (instructionsSecondary counts : ℝ))) :=
      div_nonneg (mul_nonneg (by norm_num) hIr) (hden _)
    linarith
  have hdenmd : (0:ℝ) < 1.0 + md1 + md2 := by linarith
  have habs : |md1 - md2| ≤ 1.0 + md1 + md2 :=
    abs_le.mpr ⟨by linarith, by linarith⟩
  have hratio0 : 0 ≤ |md1 - md2| / (1.0 + md1 + md2) :=
    div_nonneg (abs_nonneg _) hdenmd.le
  have hratio1 : |md1 - md2| / (1.0 + md1 + md2) ≤ 1 :=
    (div_le_one hdenmd).mpr habs
  have hmdt0 : 0 ≤ 1.0 - |md1 - md2| / (1.0 + md1 + md2) := by linarith
  have hmdt1 : 1.0 - |md1 - md2| / (1.0 + md1 + md2) ≤ 1 := by linarith
  unfold GetSimilarityScoreFlowGraph
  split_ifs with hcase
  · norm_num
  · exact flowGraphScore_shape_bounds _ _ _ hsum hmdt0 hmdt1 hc0 hc1

/-- C10, witness: at zero MD-indices and the all-zero counts map the
score and the confidence are inside `[0, 1]`. -/
theorem getSimilarityScore_flowGraph_bounds_witness :
    (0:ℝ) ≤ 0
    ∧ (0 ≤ GetSimilarityScoreFlowGraph 0 0 [] (fun _ => 0) (fun _ => 0)
      ∧ GetSimilarityScoreFlowGraph 0 0 [] (fun _ => 0) (fun _ => 0) ≤ 1)
    ∧ (0 ≤ GetConfidence [] (fun _ => 0)
      ∧ GetConfidence [] (fun _ => 0) ≤ 1) :=
  ⟨le_refl 0,
   getSimilarityScore_flowGraph_bounds 0 0 [] (fun _ => 0) (fun _ => 0)
     (le_refl 0) (le_refl 0) (fun _ => le_refl 0)⟩

end BinDiff
